import Mathlib

/-
Verification development for `src/static/public/login/script.js`:
a browser login controller that posts credentials, extracts a JWT from the
auth response, resolves the user profile over an ordered list of candidate
endpoints, persists token and profile to localStorage, and redirects with
`jwt`, `browser_url` and `userdata` query parameters.

The JavaScript is shallowly embedded: JSON/JS values are the inductive
`Val`; objects are association lists in insertion order (`Obj`), with
`setKey` modelling property assignment (replace in place, else append) and
`spreadInto` modelling an object literal's spread; JS truthiness (`||`,
`if (x)`) is `truthy`, nullish coalescing (`??`, `?.`) uses `nullish`;
`fetch` outcomes are the oracle type `NetOutcome` (a network-level failure,
or a status flag plus the result of `res.json()`, where `none` models the
body failing to parse); property access on `null`/`undefined` throws, which
surfaces as `Option` in `normalize`; `JSON.stringify` is `jsStringify`,
returning `none` where the real call throws (e.g. BigInt values).
-/

namespace LoginScript

/-- JS/JSON values as decoded by `res.json()` and manipulated by the script.
`vUndefined` is JS `undefined` (absent property); `vBigInt` is a JS BigInt,
included because `JSON.stringify` throws on it. Arrays are not needed by
any claim and are omitted. -/
inductive Val where
  | vNull : Val
  | vUndefined : Val
  | vBool : Bool → Val
  | vNum : Int → Val
  | vBigInt : Int → Val
  | vStr : String → Val
  | vObj : List (String × Val) → Val

/-- A JS object: own enumerable properties in insertion order. -/
abbrev Obj := List (String × Val)

/-- JS truthiness, as used by `||` and `if (x)`. -/
def truthy : Val → Bool
  | .vNull => false
  | .vUndefined => false
  | .vBool b => b
  | .vNum n => n != 0
  | .vBigInt n => n != 0
  | .vStr s => s != ""
  | .vObj _ => true

/-- JS nullish test (`null` or `undefined`), as used by `??` and `?.`. -/
def nullish : Val → Bool
  | .vNull => true
  | .vUndefined => true
  | _ => false

/-- `a || b` in JS. -/
def jsOr (a b : Val) : Val := if truthy a then a else b

/-- `a ?? b` in JS. -/
def jsNullish (a b : Val) : Val := if nullish a then b else a

/-- First binding of a key in an association list. -/
def lookupKey {α : Type} : List (String × α) → String → Option α
  | [], _ => none
  | (k', v) :: rest, k => if k' = k then some v else lookupKey rest k

/-- Property assignment: replace the first binding in place, else append.
This is how a JS object literal accumulates its properties. -/
def setKey {α : Type} : List (String × α) → String → α → List (String × α)
  | [], k, v => [(k, v)]
  | (k', v') :: rest, k, v =>
      if k' = k then (k', v) :: rest else (k', v') :: setKey rest k v

/-- Merging `src` into `base` one property at a time, in `src` order:
the semantics of `{ ...baseLiteral, ...src }`. -/
def spreadInto {α : Type} (base src : List (String × α)) : List (String × α) :=
  src.foldl (fun acc p => setKey acc p.1 p.2) base

/-- Reading an own property of an object, `undefined` when absent. -/
def getOwn (o : Obj) (k : String) : Val :=
  match lookupKey o k with
  | some v => v
  | none => .vUndefined

/-- Member access on a JS string: `length` and canonical numeric indices;
everything else is `undefined`. -/
def stringCharProp (s : String) (k : String) : Val :=
  if k = "length" then .vNum s.length
  else
    match k.toNat? with
    | some i =>
        if toString i = k then
          match s.data.get? i with
          | some c => .vStr (String.singleton c)
          | none => .vUndefined
        else .vUndefined
    | none => .vUndefined

/-- Member access `v.k` on a value that is not `null`/`undefined`
(on those the real access throws; callers guard with `nullish`). -/
def getFieldNN (v : Val) (k : String) : Val :=
  match v with
  | .vObj fields => getOwn fields k
  | .vStr s => stringCharProp s k
  | _ => .vUndefined

/-- Optional chaining `v?.k`: `undefined` on nullish `v`, else member access. -/
def optChain (v : Val) (k : String) : Val :=
  if nullish v then .vUndefined else getFieldNN v k

/-- Own enumerable properties contributed by `...v` in an object literal:
an object's fields; a string's indexed characters; nothing for primitives. -/
def ownEntries : Val → Obj
  | .vObj fields => fields
  | .vStr s => s.data.enum.map (fun p => (toString p.1, Val.vStr (String.singleton p.2)))
  | _ => []

-- ----- Config (script.js lines 8-14) -----

def ENDPOINT_LOGIN : String := "/auth/login"

def PROFILE_CANDIDATES : List String := ["/auth/me", "/auth/user", "/auth/profile"]

def FRONT_REDIRECT : String := "http://127.0.0.1:3000/"

def BROWSER_URL : String := "http://127.0.0.1:8000"

-- ----- pickToken (script.js lines 33-36) -----

/-- `data?.access_token || data?.jwt || data?.token || null`. -/
def pickToken (data : Val) : Val :=
  jsOr (optChain data "access_token")
    (jsOr (optChain data "jwt")
      (jsOr (optChain data "token") .vNull))

-- ----- Profile normalization (script.js lines 61-67) -----

/-- `data.user_id ?? data.id ?? data.userId ?? null`. -/
def canonUserId (d : Val) : Val :=
  jsNullish (getFieldNN d "user_id")
    (jsNullish (getFieldNN d "id")
      (jsNullish (getFieldNN d "userId") .vNull))

/-- `data.username ?? data.user ?? data.name ?? null`. -/
def canonUsername (d : Val) : Val :=
  jsNullish (getFieldNN d "username")
    (jsNullish (getFieldNN d "user")
      (jsNullish (getFieldNN d "name") .vNull))

/-- `data.email ?? null`. -/
def canonEmail (d : Val) : Val :=
  jsNullish (getFieldNN d "email") .vNull

/-- The three computed properties of the `user` object literal, in source
order, before the final `...data` spread. -/
def canonBase (d : Val) : Obj :=
  [("user_id", canonUserId d), ("username", canonUsername d), ("email", canonEmail d)]

/-- The `user` object literal of `fetchUserProfile`:
`{ user_id: ..., username: ..., email: ..., ...data }`.
Property access on a nullish `data` throws a TypeError (caught by the
candidate loop), hence the `Option`. -/
def normalize (data : Val) : Option Obj :=
  if nullish data then none
  else some (spreadInto (canonBase data) (ownEntries data))

/-- `normalize` specialized to an object body, the common case. -/
def normObj (fields : Obj) : Obj :=
  spreadInto (canonBase (.vObj fields)) fields

theorem normalize_vObj (fields : Obj) : normalize (.vObj fields) = some (normObj fields) := rfl

-- ----- localStorage and saveSession (script.js lines 39-46) -----

/-- The key/value store behind `localStorage`. -/
abbrev Store := List (String × String)

/-- `localStorage.getItem`. -/
def getItem (st : Store) (k : String) : Option String := lookupKey st k

/-- String coercion applied by `localStorage.setItem` and `URLSearchParams`. -/
def jsToString : Val → String
  | .vNull => "null"
  | .vUndefined => "undefined"
  | .vBool b => if b then "true" else "false"
  | .vNum n => toString n
  | .vBigInt n => toString n
  | .vStr s => s
  | .vObj _ => "[object Object]"

-- ----- JSON.stringify -----

/-- Lowercase hex digit. -/
def hexDigitLower (n : Nat) : Char :=
  if n < 10 then Char.ofNat (48 + n) else Char.ofNat (97 + n - 10)

/-- JSON string escaping as performed by `JSON.stringify`. -/
def jsonEscapeChar (c : Char) : String :=
  if c = '"' then "\\\""
  else if c = '\\' then "\\\\"
  else if c = '\n' then "\\n"
  else if c = '\t' then "\\t"
  else if c = '\r' then "\\r"
  else if c = Char.ofNat 8 then "\\b"
  else if c = Char.ofNat 12 then "\\f"
  else if c.toNat < 32 then
    "\\u00" ++ String.singleton (hexDigitLower (c.toNat / 16))
      ++ String.singleton (hexDigitLower (c.toNat % 16))
  else String.singleton c

/-- A JSON string literal for `s`. -/
def jsonQuote (s : String) : String :=
  "\"" ++ String.join (s.data.map jsonEscapeChar) ++ "\""

mutual

/-- `JSON.stringify`. `none` models the call throwing (BigInt values) or
returning no string at all (top-level `undefined`); properties whose value
is `undefined` are omitted from object output, as in JS. -/
def jsStringify : Val → Option String
  | .vNull => some "null"
  | .vUndefined => none
  | .vBool b => some (if b then "true" else "false")
  | .vNum n => some (toString n)
  | .vBigInt _ => none
  | .vStr s => some (jsonQuote s)
  | .vObj fields =>
      match jsStringifyFields fields with
      | some parts => some ("\x7b" ++ String.intercalate "," parts ++ "\x7d")
      | none => none

/-- Serializes an object's properties, skipping `undefined` values. -/
def jsStringifyFields : List (String × Val) → Option (List String)
  | [] => some []
  | (k, v) :: rest =>
      match v with
      | .vUndefined => jsStringifyFields rest
      | _ =>
          match jsStringify v with
          | some s =>
              match jsStringifyFields rest with
              | some tail => some ((jsonQuote k ++ ":" ++ s) :: tail)
              | none => none
          | none => none

end

/-- `saveSession({jwt, user})` (script.js lines 39-46): best-effort writes,
each guarded by truthiness; a `JSON.stringify` throw is caught by the
surrounding `try`, after the `jwt` write already happened. -/
def saveSession (jwtArg userArg : Val) (st : Store) : Store :=
  let st1 := if truthy jwtArg then setKey st "jwt" (jsToString jwtArg) else st
  if truthy userArg then
    match jsStringify userArg with
    | some s => setKey st1 "userdata" s
    | none => st1
  else st1

-- ----- fetch oracle and fetchUserProfile (script.js lines 49-74) -----

/-- Outcome of one `fetch` call: a transport-level failure, or a response
with `res.ok` and the result of `await res.json()` (`none` when the body
fails to parse and `res.json()` rejects). The bearer token is part of the
oracle's closure. -/
inductive NetOutcome where
  | netErr : NetOutcome
  | resp : Bool → Option Val → NetOutcome

/-- The candidate loop of `fetchUserProfile`, instrumented with the list of
paths actually fetched. Any throw inside the loop body (transport failure,
`res.json()` rejection, or `data.user_id` on a null body) is caught and the
loop advances; a normalized body returns immediately. -/
def fetchUserProfileGo (net : String → NetOutcome) : List String → Option Obj × List String
  | [] => (none, [])
  | p :: rest =>
      let next := fetchUserProfileGo net rest
      match net p with
      | .netErr => (next.1, p :: next.2)
      | .resp ok body =>
          if ok then
            match body with
            | none => (next.1, p :: next.2)
            | some data =>
                match normalize data with
                | some u => (some u, [p])
                | none => (next.1, p :: next.2)
          else (next.1, p :: next.2)

/-- `fetchUserProfile(jwt)`: the value the script observes. -/
def fetchUserProfile (net : String → NetOutcome) (cands : List String) : Option Obj :=
  (fetchUserProfileGo net cands).1

/-- A candidate is a failure for the loop exactly when it is a transport
error, a non-success status, an unparsable body, or a body on which the
normalization's property access throws (a nullish body). -/
def candidateFails : NetOutcome → Bool
  | .netErr => true
  | .resp ok body =>
      !ok || (match body with
              | none => true
              | some d => nullish d)

-- ----- redirectWithParams (script.js lines 77-93) -----

/-- Uppercase hex digit, as used by percent-encoding. -/
def hexDigitUpper (n : Nat) : Char :=
  if n < 10 then Char.ofNat (48 + n) else Char.ofNat (65 + n - 10)

/-- `application/x-www-form-urlencoded` serialization of one UTF-8 byte,
as produced by `URLSearchParams.toString()`. -/
def formEncByte (b : UInt8) : String :=
  let n := b.toNat
  if (48 ≤ n ∧ n ≤ 57) ∨ (65 ≤ n ∧ n ≤ 90) ∨ (97 ≤ n ∧ n ≤ 122)
      ∨ n = 42 ∨ n = 45 ∨ n = 46 ∨ n = 95 then
    String.singleton (Char.ofNat n)
  else if n = 32 then "+"
  else
    "%" ++ String.singleton (hexDigitUpper (n / 16))
      ++ String.singleton (hexDigitUpper (n % 16))

/-- Percent-encoding of a whole string over its UTF-8 bytes. -/
def formUrlEncode (s : String) : String :=
  String.join (s.toUTF8.toList.map formEncByte)

/-- The `userdata` value: `JSON.stringify(user ?? {})`, with the catch
branch substituting the literal empty-object text. -/
def userdataString (user : Val) : String :=
  match jsStringify (if nullish user then .vObj [] else user) with
  | some s => s
  | none => "\x7b\x7d"

/-- The three entries handed to `new URLSearchParams({...})`, in source
order, with its string coercion applied. -/
def redirectParams (jwtArg user : Val) : List (String × String) :=
  [("jwt", jsToString jwtArg), ("browser_url", BROWSER_URL), ("userdata", userdataString user)]

/-- The full navigation target `FRONT_REDIRECT?qs`. -/
def redirectUrl (jwtArg user : Val) : String :=
  FRONT_REDIRECT ++ "?" ++
    String.intercalate "&"
      ((redirectParams jwtArg user).map (fun p => formUrlEncode p.1 ++ "=" ++ formUrlEncode p.2))

-- ----- submit controller (script.js lines 96-150) -----

/-- `showError`: the text actually displayed, with its own truthiness
fallback. -/
def showErrorText (m : Val) : Val :=
  if truthy m then m else .vStr "Error al iniciar sesión."

def fallbackAuthMsg : Val := .vStr "Credenciales inválidas."

def tokenMissingMsg : Val := .vStr "No se recibió el token de acceso."

def connErrorMsg : Val := .vStr "No se pudo conectar con el servidor."

/-- Message chosen in the `!res.ok` branch: `err?.detail || message`, with
the body-parse failure swallowed by the inner `try`. -/
def authFailMsg (body : Option Val) : Val :=
  match body with
  | some errBody =>
      let d := optChain errBody "detail"
      if truthy d then d else fallbackAuthMsg
  | none => fallbackAuthMsg

/-- Observable steps of one submit, in execution order. -/
inductive Ev where
  | save : Val → Val → Ev
  | probe : String → Ev
  | nav : String → Ev
  | err : Val → Ev

/-- Observable outcome of one submit. -/
structure SubmitResult where
  errorShown : Option Val
  store : Store
  redirected : Option String
  events : List Ev

/-- The form submit handler: `authRes` is the outcome of the `POST
/auth/login` fetch; `net` answers the profile candidate fetches; `st` is
the localStorage content at submit time. -/
def handleSubmit (authRes : NetOutcome) (net : String → NetOutcome) (st : Store) : SubmitResult :=
  match authRes with
  | .netErr =>
      ⟨some (showErrorText connErrorMsg), st, none, [.err (showErrorText connErrorMsg)]⟩
  | .resp ok body =>
      if ok then
        match body with
        | none =>
            ⟨some (showErrorText connErrorMsg), st, none, [.err (showErrorText connErrorMsg)]⟩
        | some data =>
            let token := pickToken data
            if truthy token then
              let st1 := saveSession token .vUndefined st
              let pr := fetchUserProfileGo net PROFILE_CANDIDATES
              let st2 := match pr.1 with
                | some u => saveSession token (.vObj u) st1
                | none => st1
              let theUser : Val := match pr.1 with
                | some u => .vObj u
                | none => .vObj []
              let url := redirectUrl token theUser
              ⟨none, st2, some url,
                .save token .vUndefined :: pr.2.map Ev.probe
                  ++ (match pr.1 with
                      | some u => [Ev.save token (.vObj u)]
                      | none => [])
                  ++ [Ev.nav url]⟩
            else
              ⟨some (showErrorText tokenMissingMsg), st, none,
                [.err (showErrorText tokenMissingMsg)]⟩
      else
        ⟨some (showErrorText (authFailMsg body)), st, none,
          [.err (showErrorText (authFailMsg body))]⟩

-- ----- Association-list lemmas -----

theorem lookupKey_setKey_self {α : Type} (o : List (String × α)) (k : String) (v : α) :
    lookupKey (setKey o k v) k = some v := by
  induction o with
  | nil => simp [setKey, lookupKey]
  | cons p rest ih =>
      obtain ⟨k', v'⟩ := p
      by_cases h : k' = k
      · subst h; simp [setKey, lookupKey]
      · simp [setKey, lookupKey, h, ih]

theorem lookupKey_setKey_ne {α : Type} (o : List (String × α)) {k k' : String} (v : α)
    (h : k' ≠ k) : lookupKey (setKey o k' v) k = lookupKey o k := by
  induction o with
  | nil => simp [setKey, lookupKey, h]
  | cons p rest ih =>
      obtain ⟨a, b⟩ := p
      by_cases ha : a = k'
      · subst ha; simp [setKey, lookupKey, h]
      · by_cases hk : a = k
        · subst hk
          simp [setKey, lookupKey, ha]
        · simp [setKey, lookupKey, ha, hk, ih]

theorem setKey_keys {α : Type} (o : List (String × α)) (k : String) (v : α) :
    (setKey o k v).map Prod.fst =
      if k ∈ o.map Prod.fst then o.map Prod.fst else o.map Prod.fst ++ [k] := by
  induction o with
  | nil => simp [setKey]
  | cons p rest ih =>
      obtain ⟨a, b⟩ := p
      by_cases h : a = k
      · subst h; simp [setKey]
      · by_cases hm : k ∈ rest.map Prod.fst <;>
          simp [setKey, h, hm, ih, Ne.symm h]

theorem mem_keys_setKey_self {α : Type} (o : List (String × α)) (k : String) (v : α) :
    k ∈ (setKey o k v).map Prod.fst := by
  rw [setKey_keys]
  by_cases hm : k ∈ o.map Prod.fst <;> simp [hm]

theorem keys_nodup_setKey {α : Type} (o : List (String × α)) (k : String) (v : α)
    (h : (o.map Prod.fst).Nodup) : ((setKey o k v).map Prod.fst).Nodup := by
  rw [setKey_keys]
  by_cases hm : k ∈ o.map Prod.fst
  · simpa [hm] using h
  · simp [hm, List.nodup_append, h, List.disjoint_singleton]

theorem setKey_notMem_append {α : Type} (o : List (String × α)) {k : String} (v : α)
    (h : k ∉ o.map Prod.fst) : setKey o k v = o ++ [(k, v)] := by
  induction o with
  | nil => simp [setKey]
  | cons p rest ih =>
      obtain ⟨a, b⟩ := p
      simp only [List.map_cons, List.mem_cons, not_or] at h
      simp [setKey, Ne.symm h.1, ih h.2]

theorem spreadInto_nil {α : Type} (base : List (String × α)) : spreadInto base [] = base := rfl

theorem spreadInto_cons {α : Type} (base : List (String × α)) (p : String × α)
    (src : List (String × α)) :
    spreadInto base (p :: src) = spreadInto (setKey base p.1 p.2) src := rfl

theorem spreadInto_keys {α : Type} (src base : List (String × α)) :
    ∃ rest, (spreadInto base src).map Prod.fst = base.map Prod.fst ++ rest := by
  induction src generalizing base with
  | nil => exact ⟨[], by simp [spreadInto]⟩
  | cons p t ih =>
      rw [spreadInto_cons]
      obtain ⟨r, hr⟩ := ih (setKey base p.1 p.2)
      rw [hr, setKey_keys]
      by_cases hm : p.1 ∈ base.map Prod.fst
      · exact ⟨r, by simp [hm]⟩
      · exact ⟨p.1 :: r, by simp [hm]⟩

theorem keys_nodup_spreadInto {α : Type} (src base : List (String × α))
    (h : (base.map Prod.fst).Nodup) : ((spreadInto base src).map Prod.fst).Nodup := by
  induction src generalizing base with
  | nil => exact h
  | cons p t ih => exact ih _ (keys_nodup_setKey _ _ _ h)

theorem lookupKey_spreadInto_notMem {α : Type} (src base : List (String × α)) {k : String}
    (h : k ∉ src.map Prod.fst) :
    lookupKey (spreadInto base src) k = lookupKey base k := by
  induction src generalizing base with
  | nil => rfl
  | cons p t ih =>
      simp only [List.map_cons, List.mem_cons, not_or] at h
      rw [spreadInto_cons, ih _ h.2, lookupKey_setKey_ne _ _ (Ne.symm h.1)]

theorem lookupKey_spreadInto_mem {α : Type} (src base : List (String × α)) {k : String}
    (hnd : (src.map Prod.fst).Nodup) (hmem : k ∈ src.map Prod.fst) :
    lookupKey (spreadInto base src) k = lookupKey src k := by
  induction src generalizing base with
  | nil => simp at hmem
  | cons p t ih =>
      obtain ⟨a, b⟩ := p
      simp only [List.map_cons, List.nodup_cons] at hnd
      simp only [List.map_cons] at hmem
      by_cases hk : a = k
      · subst hk
        rw [spreadInto_cons, lookupKey_spreadInto_notMem _ _ hnd.1]
        simp [lookupKey, lookupKey_setKey_self]
      · have h1 : k ∈ t.map Prod.fst := by
          rcases List.mem_cons.mp hmem with h | h
          · exact absurd h.symm hk
          · exact h
        rw [spreadInto_cons, ih _ hnd.2 h1]
        simp [lookupKey, hk]

theorem mem_keys_spreadInto_of_base {α : Type} (src base : List (String × α)) {k : String}
    (h : k ∈ base.map Prod.fst) : k ∈ (spreadInto base src).map Prod.fst := by
  obtain ⟨r, hr⟩ := spreadInto_keys src base
  rw [hr]
  exact List.mem_append_left _ h

theorem mem_keys_spreadInto_of_src {α : Type} (src base : List (String × α)) {k : String}
    (h : k ∈ src.map Prod.fst) : k ∈ (spreadInto base src).map Prod.fst := by
  induction src generalizing base with
  | nil => simp at h
  | cons p t ih =>
      rcases List.mem_cons.mp h with h1 | h1
      · subst h1
        rw [spreadInto_cons]
        exact mem_keys_spreadInto_of_base _ _ (mem_keys_setKey_self _ _ _)
      · rw [spreadInto_cons]; exact ih _ h1

theorem spreadInto_disjoint_append {α : Type} (src base : List (String × α))
    (hdisj : ∀ k ∈ src.map Prod.fst, k ∉ base.map Prod.fst)
    (hnd : (src.map Prod.fst).Nodup) : spreadInto base src = base ++ src := by
  induction src generalizing base with
  | nil => simp [spreadInto]
  | cons p t ih =>
      obtain ⟨a, b⟩ := p
      simp only [List.map_cons, List.nodup_cons] at hnd
      rw [spreadInto_cons]
      have ha : a ∉ base.map Prod.fst := hdisj a (by simp)
      rw [setKey_notMem_append _ _ ha]
      rw [ih (base ++ [(a, b)]) ?_ hnd.2]
      · simp
      · intro k hk
        simp only [List.map_append, List.mem_append, List.map_cons, List.map_nil,
          List.mem_singleton, not_or]
        refine ⟨hdisj k (by simp [hk]), ?_⟩
        intro hka
        exact hnd.1 (hka ▸ hk)

theorem getOwn_spreadInto_mem (src base : Obj) {k : String}
    (hnd : (src.map Prod.fst).Nodup) (hmem : k ∈ src.map Prod.fst) :
    getOwn (spreadInto base src) k = getOwn src k := by
  unfold getOwn
  rw [lookupKey_spreadInto_mem src base hnd hmem]

theorem getOwn_spreadInto_notMem (src base : Obj) {k : String}
    (h : k ∉ src.map Prod.fst) :
    getOwn (spreadInto base src) k = getOwn base k := by
  unfold getOwn
  rw [lookupKey_spreadInto_notMem src base h]

/-- Re-spreading an object built over the three-field literal is the
identity: the object's own first three entries overwrite whatever the new
literal computed, and the remaining entries are disjoint appends. -/
theorem spreadInto_three_idem (x y z x' y' z' : Val) (src : Obj) :
    spreadInto [("user_id", x'), ("username", y'), ("email", z')]
        (spreadInto [("user_id", x), ("username", y), ("email", z)] src)
      = spreadInto [("user_id", x), ("username", y), ("email", z)] src := by
  obtain ⟨rest, hkeys⟩ :=
    spreadInto_keys src [("user_id", x), ("username", y), ("email", z)]
  have hnd : ((spreadInto [("user_id", x), ("username", y), ("email", z)] src).map
      Prod.fst).Nodup :=
    keys_nodup_spreadInto src _ (by simp)
  simp only [List.map_cons, List.map_nil] at hkeys
  generalize hG : spreadInto [("user_id", x), ("username", y), ("email", z)] src = u
      at hkeys hnd ⊢
  rcases u with _ | ⟨⟨a1, b1⟩, _ | ⟨⟨a2, b2⟩, _ | ⟨⟨a3, b3⟩, t⟩⟩⟩
  · simp at hkeys
  · simp at hkeys
  · simp at hkeys
  · simp only [List.map_cons, List.cons_append, List.nil_append, List.cons.injEq] at hkeys
    obtain ⟨h1, h2, h3, hrest⟩ := hkeys
    subst h1; subst h2; subst h3
    simp only [List.map_cons, List.nodup_cons, List.mem_cons, not_or] at hnd
    obtain ⟨⟨_, _, hA⟩, ⟨_, hB⟩, hC, hD⟩ := hnd
    rw [spreadInto_cons, spreadInto_cons, spreadInto_cons]
    have hbase : setKey (setKey (setKey
        [("user_id", x'), ("username", y'), ("email", z')]
        ("user_id", b1).1 ("user_id", b1).2) ("username", b2).1 ("username", b2).2)
        ("email", b3).1 ("email", b3).2
        = [("user_id", b1), ("username", b2), ("email", b3)] := by
      simp [setKey]
    rw [hbase]
    rw [spreadInto_disjoint_append t _ ?_ hD]
    · simp
    · intro k hk
      simp only [List.map_cons, List.map_nil, List.mem_cons, List.not_mem_nil, not_or]
      exact ⟨fun heq => hA (heq ▸ hk), fun heq => hB (heq ▸ hk),
        fun heq => hC (heq ▸ hk), not_false⟩

-- ----- Claim theorems -----

/-- C3: profile normalization is idempotent. `normalize` on an object body
produces `normObj fields`, and normalizing that canonical profile again
yields the identical object: the final `...data` spread rewrites the three
literal fields in place with their own values and appends nothing new. -/
theorem normalize_idempotent (fields : Obj) :
    normalize (.vObj fields) = some (normObj fields)
    ∧ normObj (normObj fields) = normObj fields := by
  refine ⟨rfl, ?_⟩
  unfold normObj
  simp only [canonBase]
  exact spreadInto_three_idem _ _ _ _ _ _ fields

/-- Raw profile with a canonical key colliding with an alias: raw
`user_id` is `null` while raw `id` is `7`. -/
def rC1 : Obj := [("user_id", Val.vNull), ("id", Val.vNum 7)]

/-- C1 counterexample: on `{user_id: null, id: 7}` the first-match alias
priority computes `7` for `user_id`, but the normalized object carries
`null` there — the raw spread is merged last and overrides the computed
canonical field, not the other way round as the claim states. -/
theorem normalize_computed_override_cex :
    canonUserId (.vObj rC1) = .vNum 7
    ∧ getOwn (normObj rC1) "user_id" = .vNull
    ∧ (Val.vNull : Val) ≠ .vNum 7 :=
  ⟨rfl, rfl, fun h => Val.noConfusion h⟩

/-- C1 (amended): in a key collision between a canonical field name and a
raw field, the raw field wins: `...data` is merged last, so every key
present in the raw object keeps its raw value in the normalized output. -/
theorem normalize_raw_overrides_computed (fields : Obj) (k : String)
    (hnd : (fields.map Prod.fst).Nodup) (hmem : k ∈ fields.map Prod.fst) :
    getOwn (normObj fields) k = getOwn fields k :=
  getOwn_spreadInto_mem fields _ hnd hmem

/-- Witness for the amended C1 theorem at the collision input. -/
theorem normalize_raw_overrides_computed_witness :
    ((rC1.map Prod.fst).Nodup ∧ "user_id" ∈ rC1.map Prod.fst)
    ∧ getOwn (normObj rC1) "user_id" = getOwn rC1 "user_id" :=
  ⟨⟨by decide, by decide⟩,
    normalize_raw_overrides_computed rC1 "user_id" (by decide) (by decide)⟩

/-- C8: the normalized output always has the three canonical keys; every
raw key appears in the output; non-canonical raw keys keep their raw
values; a canonical key not present raw carries the first-match alias
value, which is the `null` marker when no alias matched. -/
theorem normalize_canonical_keys_and_passthrough (fields : Obj)
    (hnd : (fields.map Prod.fst).Nodup) :
    "user_id" ∈ (normObj fields).map Prod.fst
    ∧ "username" ∈ (normObj fields).map Prod.fst
    ∧ "email" ∈ (normObj fields).map Prod.fst
    ∧ (∀ k, k ∈ fields.map Prod.fst → k ∈ (normObj fields).map Prod.fst)
    ∧ (∀ k, k ∈ fields.map Prod.fst → k ≠ "user_id" → k ≠ "username" → k ≠ "email" →
        getOwn (normObj fields) k = getOwn fields k)
    ∧ ("user_id" ∉ fields.map Prod.fst →
        getOwn (normObj fields) "user_id" = canonUserId (.vObj fields))
    ∧ ("username" ∉ fields.map Prod.fst →
        getOwn (normObj fields) "username" = canonUsername (.vObj fields))
    ∧ ("email" ∉ fields.map Prod.fst →
        getOwn (normObj fields) "email" = canonEmail (.vObj fields))
    ∧ (∀ d : Val, nullish (getFieldNN d "user_id") = true →
        nullish (getFieldNN d "id") = true → nullish (getFieldNN d "userId") = true →
        canonUserId d = .vNull)
    ∧ (∀ d : Val, nullish (getFieldNN d "username") = true →
        nullish (getFieldNN d "user") = true → nullish (getFieldNN d "name") = true →
        canonUsername d = .vNull)
    ∧ (∀ d : Val, nullish (getFieldNN d "email") = true → canonEmail d = .vNull) := by
  refine ⟨?_, ?_, ?_, ?_, ?_, ?_, ?_, ?_, ?_, ?_, ?_⟩
  · exact mem_keys_spreadInto_of_base _ _ (by simp [canonBase])
  · exact mem_keys_spreadInto_of_base _ _ (by simp [canonBase])
  · exact mem_keys_spreadInto_of_base _ _ (by simp [canonBase])
  · intro k hk
    exact mem_keys_spreadInto_of_src _ _ hk
  · intro k hk _ _ _
    exact getOwn_spreadInto_mem fields _ hnd hk
  · intro hnm
    rw [normObj, getOwn_spreadInto_notMem _ _ hnm]
    simp [canonBase, getOwn, lookupKey]
  · intro hnm
    rw [normObj, getOwn_spreadInto_notMem _ _ hnm]
    simp [canonBase, getOwn, lookupKey]
  · intro hnm
    rw [normObj, getOwn_spreadInto_notMem _ _ hnm]
    simp [canonBase, getOwn, lookupKey]
  · intro d h1 h2 h3
    simp [canonUserId, jsNullish, h1, h2, h3]
  · intro d h1 h2 h3
    simp [canonUsername, jsNullish, h1, h2, h3]
  · intro d h1
    simp [canonEmail, jsNullish, h1]

/-- Witness for the C8 theorem on a raw profile with one unrecognized key
and no alias for any canonical field. -/
theorem normalize_canonical_keys_and_passthrough_witness :
    "user_id" ∈ (normObj [("foo", Val.vNum 1)]).map Prod.fst
    ∧ getOwn (normObj [("foo", Val.vNum 1)]) "foo" = getOwn [("foo", Val.vNum 1)] "foo"
    ∧ getOwn (normObj [("foo", Val.vNum 1)]) "user_id"
        = canonUserId (.vObj [("foo", Val.vNum 1)])
    ∧ canonUserId (.vObj [("foo", Val.vNum 1)]) = .vNull := by
  have h := normalize_canonical_keys_and_passthrough [("foo", Val.vNum 1)] (by decide)
  exact ⟨h.1,
    h.2.2.2.2.1 "foo" (by decide) (by decide) (by decide) (by decide),
    h.2.2.2.2.2.1 (by decide),
    h.2.2.2.2.2.2.2.2.1 _ (by decide) (by decide) (by decide)⟩

/-- Auth response whose primary token field is present but empty. -/
def dC2 : Val := .vObj [("access_token", .vStr ""), ("jwt", .vStr "X")]

/-- C2 counterexample: with `access_token` present (value `""`) and `jwt`
present, `pickToken` returns the `jwt` value, not the `access_token`
value: `||` tests truthiness, so a present-but-falsy primary field falls
through, contradicting the claim's "regardless of the primary field's
value". -/
theorem pickToken_primary_present_cex :
    optChain dC2 "access_token" = .vStr ""
    ∧ pickToken dC2 = .vStr "X"
    ∧ (Val.vStr "X" : Val) ≠ .vStr "" :=
  ⟨rfl, rfl, fun h => absurd (Val.vStr.inj h) (by decide)⟩

/-- C2 (amended): whenever the primary `access_token` field holds a truthy
value (in particular any non-empty string), `pickToken` returns exactly
that value, regardless of what other fields are present. -/
theorem pickToken_primary_truthy (data : Val)
    (h : truthy (optChain data "access_token") = true) :
    pickToken data = optChain data "access_token" := by
  simp [pickToken, jsOr, h]

/-- Witness for the amended C2 theorem. -/
theorem pickToken_primary_truthy_witness :
    truthy (optChain (.vObj [("access_token", .vStr "T"), ("jwt", .vStr "J")])
        "access_token") = true
    ∧ pickToken (.vObj [("access_token", .vStr "T"), ("jwt", .vStr "J")])
        = optChain (.vObj [("access_token", .vStr "T"), ("jwt", .vStr "J")]) "access_token" :=
  ⟨by decide, pickToken_primary_truthy _ (by decide)⟩

@[simp] theorem candidateFails_netErr : candidateFails .netErr = true := rfl

@[simp] theorem candidateFails_resp_false (body : Option Val) :
    candidateFails (.resp false body) = true := rfl

@[simp] theorem candidateFails_resp_true_none : candidateFails (.resp true none) = true := rfl

@[simp] theorem candidateFails_resp_true_some (d : Val) :
    candidateFails (.resp true (some d)) = nullish d := by simp [candidateFails]

/-- Failing candidates contribute only their path to the trace; the loop
outcome is that of the remaining candidates. -/
theorem fetchGo_append_failures (net : String → NetOutcome) (tail : List String) :
    ∀ pre : List String, (∀ q ∈ pre, candidateFails (net q) = true) →
      fetchUserProfileGo net (pre ++ tail)
        = ((fetchUserProfileGo net tail).1, pre ++ (fetchUserProfileGo net tail).2) := by
  intro pre
  induction pre with
  | nil => intro _; simp
  | cons q pre ih =>
      intro hfails
      have hq : candidateFails (net q) = true := hfails q (by simp)
      have ihh := ih (fun r hr => hfails r (by simp [hr]))
      cases hnq : net q with
      | netErr => simp [fetchUserProfileGo, hnq, ihh]
      | resp ok body =>
          rw [hnq] at hq
          cases ok with
          | false => simp [fetchUserProfileGo, hnq, ihh]
          | true =>
              cases body with
              | none => simp [fetchUserProfileGo, hnq, ihh]
              | some d =>
                  simp only [candidateFails, Bool.not_true, Bool.false_or] at hq
                  simp [fetchUserProfileGo, hnq, normalize, hq, ihh]

/-- The loop yields no profile exactly when every candidate fails. -/
theorem fetchUserProfile_none_iff (net : String → NetOutcome) (cands : List String) :
    fetchUserProfile net cands = none ↔ ∀ p ∈ cands, candidateFails (net p) = true := by
  induction cands with
  | nil => simp [fetchUserProfile, fetchUserProfileGo]
  | cons p t ih =>
      have ih' : (fetchUserProfileGo net t).1 = none ↔
          ∀ p ∈ t, candidateFails (net p) = true := ih
      cases hnp : net p with
      | netErr =>
          simp [fetchUserProfile, fetchUserProfileGo, hnp, List.forall_mem_cons, ih']
      | resp ok body =>
          cases ok with
          | false =>
              simp [fetchUserProfile, fetchUserProfileGo, hnp, List.forall_mem_cons, ih']
          | true =>
              cases body with
              | none =>
                  simp [fetchUserProfile, fetchUserProfileGo, hnp, List.forall_mem_cons, ih']
              | some data =>
                  by_cases hd : nullish data = true
                  · simp [fetchUserProfile, fetchUserProfileGo, hnp,
                      normalize, hd, List.forall_mem_cons, ih']
                  · simp [fetchUserProfile, fetchUserProfileGo, hnp,
                      normalize, hd, List.forall_mem_cons]

/-- C4 (amended): the resolver tries candidates strictly in list order; on
the first candidate whose call completes with a success status AND whose
parsed body survives normalization (any non-nullish JSON value), it
returns the normalized body immediately, having contacted exactly the
failing ones before it plus that candidate; and it returns absent iff
every candidate fails (network error, non-success status, malformed body,
or a null body on which normalization's property access throws). -/
theorem fetchUserProfile_order_first_success (net : String → NetOutcome) (cands : List String) :
    (fetchUserProfile net cands = none ↔ ∀ p ∈ cands, candidateFails (net p) = true)
    ∧ (∀ pre p rest data u, cands = pre ++ p :: rest →
        (∀ q ∈ pre, candidateFails (net q) = true) →
        net p = .resp true (some data) → normalize data = some u →
        fetchUserProfileGo net cands = (some u, pre ++ [p])) := by
  refine ⟨fetchUserProfile_none_iff net cands, ?_⟩
  intro pre p rest data u hc hfails hnp hnorm
  subst hc
  rw [fetchGo_append_failures net (p :: rest) pre hfails]
  have hone : fetchUserProfileGo net (p :: rest) = (some u, [p]) := by
    simp [fetchUserProfileGo, hnp, hnorm]
  rw [hone]

/-- Oracle where the first candidate answers 200 with JSON body `null` and
the second answers 200 with a profile object. -/
def netC4 : String → NetOutcome := fun p =>
  if p = "/auth/me" then .resp true (some .vNull)
  else if p = "/auth/user" then .resp true (some (.vObj [("id", .vNum 7)]))
  else .netErr

/-- C4 counterexample: the first candidate's call completes with a success
status, yet the resolver does not return there — `data.user_id` on the
null body throws, the loop advances, and the second candidate is
contacted, contradicting "returns ... immediately without contacting any
later candidate". -/
theorem fetchUserProfile_success_status_null_body_cex :
    netC4 "/auth/me" = .resp true (some .vNull)
    ∧ (fetchUserProfileGo netC4 PROFILE_CANDIDATES).2 = ["/auth/me", "/auth/user"] :=
  ⟨rfl, rfl⟩

/-- Oracle where the first candidate fails at transport level and the
second succeeds with a profile object. -/
def netC4w : String → NetOutcome := fun p =>
  if p = "/auth/me" then .netErr
  else if p = "/auth/user" then
    .resp true (some (.vObj [("id", .vNum 7), ("name", .vStr "Bob")]))
  else .resp false none

/-- Witness for the C4 theorem: candidates A, B, C with A failing and B
succeeding; B's normalized body is returned and C is never contacted. -/
theorem fetchUserProfile_order_first_success_witness :
    (∀ q ∈ ["/auth/me"], candidateFails (netC4w q) = true)
    ∧ fetchUserProfileGo netC4w PROFILE_CANDIDATES
        = (some (normObj [("id", .vNum 7), ("name", .vStr "Bob")]), ["/auth/me", "/auth/user"]) := by
  refine ⟨?_, ?_⟩
  · intro q hq
    simp only [List.mem_singleton] at hq
    subst hq
    rfl
  · exact (fetchUserProfile_order_first_success netC4w PROFILE_CANDIDATES).2
      ["/auth/me"] "/auth/user" ["/auth/profile"]
      (.vObj [("id", .vNum 7), ("name", .vStr "Bob")])
      (normObj [("id", .vNum 7), ("name", .vStr "Bob")]) rfl
      (by intro q hq; simp only [List.mem_singleton] at hq; subst hq; rfl)
      rfl rfl

theorem jsStringify_vObj_nil : jsStringify (.vObj []) = some "\x7b\x7d" := rfl

/-- C7: the redirect query carries exactly the parameters `jwt`,
`browser_url` and `userdata`; the `userdata` value is always in the image
of the JSON serializer (hence syntactically valid JSON): the profile's own
serialization when it succeeds, and the literal empty-object text when the
profile is absent (nullish) or serialization throws; the navigation URL is
the configured destination plus exactly that encoded query. -/
theorem redirect_three_params_valid_json (jwtArg user : Val) :
    (redirectParams jwtArg user).map Prod.fst = ["jwt", "browser_url", "userdata"]
    ∧ (∃ v, jsStringify v = some (userdataString user))
    ∧ (nullish user = true → userdataString user = "\x7b\x7d")
    ∧ (∀ s, nullish user = false → jsStringify user = some s → userdataString user = s)
    ∧ (nullish user = false → jsStringify user = none → userdataString user = "\x7b\x7d")
    ∧ redirectUrl jwtArg user
        = FRONT_REDIRECT ++ "?" ++ String.intercalate "&"
            ((redirectParams jwtArg user).map
              (fun p => formUrlEncode p.1 ++ "=" ++ formUrlEncode p.2)) := by
  refine ⟨rfl, ?_, ?_, ?_, ?_, rfl⟩
  · by_cases hn : nullish user = true
    · exact ⟨.vObj [], by simp [userdataString, hn, jsStringify_vObj_nil]⟩
    · simp only [Bool.not_eq_true] at hn
      cases hs : jsStringify user with
      | some s => exact ⟨user, by simp [userdataString, hn, hs]⟩
      | none => exact ⟨.vObj [], by simp [userdataString, hn, hs, jsStringify_vObj_nil]⟩
  · intro hn
    simp [userdataString, hn, jsStringify_vObj_nil]
  · intro s hn hs
    simp [userdataString, hn, hs]
  · intro hn hs
    simp [userdataString, hn, hs]

/-- Witness for the C7 theorem: absent profile yields the literal
empty-object text, with all three parameter names in place. -/
theorem redirect_three_params_valid_json_witness :
    nullish Val.vNull = true
    ∧ userdataString Val.vNull = "\x7b\x7d"
    ∧ (redirectParams (.vStr "T") .vNull).map Prod.fst = ["jwt", "browser_url", "userdata"] := by
  have h := redirect_three_params_valid_json (.vStr "T") .vNull
  exact ⟨rfl, h.2.2.1 rfl, h.1⟩

/-- Non-success auth body whose `detail` field is present but empty. -/
def eC5 : Val := .vObj [("detail", .vStr "")]

/-- C5 counterexample: on a non-success response whose body decodes to
JSON containing a `detail` string (the empty string), the controller
displays the generic fallback, not that `detail` string: `detail ||
fallback` tests truthiness, and the empty string is falsy. -/
theorem authFailed_empty_detail_cex :
    optChain eC5 "detail" = .vStr ""
    ∧ (handleSubmit (.resp false (some eC5)) (fun _ => .netErr) []).errorShown
        = some fallbackAuthMsg
    ∧ fallbackAuthMsg ≠ .vStr "" :=
  ⟨rfl, rfl, fun h => absurd (Val.vStr.inj h) (by decide)⟩

/-- Every message the `!res.ok` branch constructs is truthy, so
`showError` displays it unchanged. -/
theorem authFailMsg_truthy (body : Option Val) : truthy (authFailMsg body) = true := by
  cases body with
  | none => rfl
  | some e =>
      simp only [authFailMsg]
      by_cases hd : truthy (optChain e "detail") = true
      · simp [hd]
      · rw [if_neg (by simp [hd])]
        rfl

/-- C5 (amended): on a non-success auth status the controller displays the
body's `detail` value when the body decodes to JSON whose `detail` is
truthy (in particular any non-empty `detail` string), and the generic
fallback otherwise — including when `detail` is present but empty or
otherwise falsy, or the body fails to decode — and then halts: the store
is untouched, no candidate is probed, and no navigation happens. -/
theorem authFailed_shows_detail_and_halts (body : Option Val) (net : String → NetOutcome)
    (st : Store) :
    handleSubmit (.resp false body) net st
      = ⟨some (authFailMsg body), st, none, [.err (authFailMsg body)]⟩
    ∧ (∀ e, truthy (optChain e "detail") = true → authFailMsg (some e) = optChain e "detail")
    ∧ (∀ e, truthy (optChain e "detail") = false → authFailMsg (some e) = fallbackAuthMsg)
    ∧ authFailMsg none = fallbackAuthMsg := by
  refine ⟨?_, ?_, ?_, rfl⟩
  · simp [handleSubmit, showErrorText, authFailMsg_truthy body]
  · intro e hd
    simp [authFailMsg, hd]
  · intro e hd
    simp [authFailMsg, hd]

/-- Witness for the C5 theorem: `401 {detail: "Bad credentials"}` displays
exactly that text and leaves the store unchanged. -/
theorem authFailed_shows_detail_and_halts_witness :
    truthy (optChain (.vObj [("detail", .vStr "Bad credentials")]) "detail") = true
    ∧ authFailMsg (some (.vObj [("detail", .vStr "Bad credentials")])) = .vStr "Bad credentials"
    ∧ handleSubmit (.resp false (some (.vObj [("detail", .vStr "Bad credentials")])))
        (fun _ => .netErr) []
        = ⟨some (.vStr "Bad credentials"), [], none, [.err (.vStr "Bad credentials")]⟩ := by
  have h := authFailed_shows_detail_and_halts
    (some (.vObj [("detail", .vStr "Bad credentials")])) (fun _ => .netErr) []
  refine ⟨by decide, (h.2.1 _ (by decide)).trans rfl, h.1.trans (by rfl)⟩

/-- C9: a success (2xx) auth status whose body is not valid JSON makes
`res.json()` reject inside the outer try, so the controller shows the
generic connectivity message — not the token-missing or
credential-rejected message — and halts with no storage write and no
redirect. -/
theorem success_status_bad_json_shows_connectivity (net : String → NetOutcome) (st : Store) :
    handleSubmit (.resp true none) net st
      = ⟨some connErrorMsg, st, none, [.err connErrorMsg]⟩
    ∧ connErrorMsg ≠ tokenMissingMsg
    ∧ connErrorMsg ≠ fallbackAuthMsg :=
  ⟨rfl, fun h => absurd (Val.vStr.inj h) (by decide),
    fun h => absurd (Val.vStr.inj h) (by decide)⟩

/-- C6: on a successful token extraction the controller first persists the
token alone, then probes the profile candidates, then — exactly when a
profile was resolved — persists token and profile together, and finally
navigates to the redirect built with the resolved profile, or with the
empty object when none was found. The event trace, the final store and the
navigation target all reflect this order. -/
theorem success_flow_event_order (data : Val) (net : String → NetOutcome) (st : Store)
    (h : truthy (pickToken data) = true) :
    (handleSubmit (.resp true (some data)) net st).events
      = .save (pickToken data) .vUndefined
          :: ((fetchUserProfileGo net PROFILE_CANDIDATES).2.map Ev.probe
            ++ (match (fetchUserProfileGo net PROFILE_CANDIDATES).1 with
                | some u => [Ev.save (pickToken data) (.vObj u)]
                | none => [])
            ++ [Ev.nav (redirectUrl (pickToken data)
                  (match (fetchUserProfileGo net PROFILE_CANDIDATES).1 with
                   | some u => .vObj u
                   | none => .vObj []))])
    ∧ (handleSubmit (.resp true (some data)) net st).store
        = (match (fetchUserProfileGo net PROFILE_CANDIDATES).1 with
           | some u => saveSession (pickToken data) (.vObj u)
                        (saveSession (pickToken data) .vUndefined st)
           | none => saveSession (pickToken data) .vUndefined st)
    ∧ (handleSubmit (.resp true (some data)) net st).redirected
        = some (redirectUrl (pickToken data)
            (match (fetchUserProfileGo net PROFILE_CANDIDATES).1 with
             | some u => .vObj u
             | none => .vObj []))
    ∧ (handleSubmit (.resp true (some data)) net st).errorShown = none := by
  cases hpr : (fetchUserProfileGo net PROFILE_CANDIDATES).1 <;>
    refine ⟨?_, ?_, ?_, ?_⟩ <;> simp [handleSubmit, h, hpr]

/-- Auth body carrying only the primary token field. -/
def dC6 : Val := .vObj [("access_token", .vStr "T1")]

/-- Oracle where every profile candidate answers 404. -/
def netC6 : String → NetOutcome := fun _ => .resp false none

/-- Witness for the C6 theorem: token `T1`, all candidates failing; the
trace is token-only persist, the three probes in order, then the redirect
with the empty object. -/
theorem success_flow_event_order_witness :
    truthy (pickToken dC6) = true
    ∧ (handleSubmit (.resp true (some dC6)) netC6 []).events
        = [.save (.vStr "T1") .vUndefined, .probe "/auth/me", .probe "/auth/user",
           .probe "/auth/profile", .nav (redirectUrl (.vStr "T1") (.vObj []))] := by
  refine ⟨by decide, ?_⟩
  have h := (success_flow_event_order dC6 netC6 [] (by decide)).1
  rw [h]
  rfl

theorem isSome_lookupKey_setKey {α : Type} (o : List (String × α)) (k k' : String) (v : α)
    (h : (lookupKey o k).isSome = true) : (lookupKey (setKey o k' v) k).isSome = true := by
  by_cases hk : k' = k
  · subst hk; simp [lookupKey_setKey_self]
  · rw [lookupKey_setKey_ne _ _ hk]; exact h

/-- A falsy `user` argument leaves the `userdata` entry untouched. -/
theorem saveSession_userdata_untouched (jwtArg userArg : Val) (st : Store)
    (hu : truthy userArg = false) :
    getItem (saveSession jwtArg userArg st) "userdata" = getItem st "userdata" := by
  by_cases hj : truthy jwtArg = true
  · simp [saveSession, getItem, hj, hu,
      lookupKey_setKey_ne st _ (by decide : "jwt" ≠ "userdata")]
  · simp [saveSession, getItem, hj, hu]

/-- A falsy `jwt` argument leaves the `jwt` entry untouched. -/
theorem saveSession_jwt_untouched (jwtArg userArg : Val) (st : Store)
    (hj : truthy jwtArg = false) :
    getItem (saveSession jwtArg userArg st) "jwt" = getItem st "jwt" := by
  by_cases hu : truthy userArg = true
  · cases hs : jsStringify userArg with
    | some s =>
        simp [saveSession, getItem, hj, hu, hs,
          lookupKey_setKey_ne st _ (by decide : "userdata" ≠ "jwt")]
    | none => simp [saveSession, getItem, hj, hu, hs]
  · simp [saveSession, getItem, hj, hu]

/-- A truthy `jwt` argument writes the coerced token under `jwt`. -/
theorem saveSession_jwt_written (jwtArg userArg : Val) (st : Store)
    (hj : truthy jwtArg = true) :
    getItem (saveSession jwtArg userArg st) "jwt" = some (jsToString jwtArg) := by
  by_cases hu : truthy userArg = true
  · cases hs : jsStringify userArg with
    | some s =>
        simp [saveSession, getItem, hj, hu, hs,
          lookupKey_setKey_ne _ _ (by decide : "userdata" ≠ "jwt"), lookupKey_setKey_self]
    | none => simp [saveSession, getItem, hj, hu, hs, lookupKey_setKey_self]
  · simp [saveSession, getItem, hj, hu, lookupKey_setKey_self]

/-- C10: `saveSession` only adds or overwrites entries — every key other
than `jwt` and `userdata` is untouched, present keys stay present, `jwt`
is written only for a truthy token and `userdata` only for a truthy
profile — so a login whose profile resolution fails overwrites the stored
`jwt` but leaves any `userdata` entry from a previous login in place. -/
theorem saveSession_frame_and_stale_userdata (jwtArg userArg : Val) (st : Store) :
    (∀ k, k ≠ "jwt" → k ≠ "userdata" →
        getItem (saveSession jwtArg userArg st) k = getItem st k)
    ∧ (∀ k, (getItem st k).isSome = true →
        (getItem (saveSession jwtArg userArg st) k).isSome = true)
    ∧ (truthy jwtArg = false →
        getItem (saveSession jwtArg userArg st) "jwt" = getItem st "jwt")
    ∧ (truthy userArg = false →
        getItem (saveSession jwtArg userArg st) "userdata" = getItem st "userdata")
    ∧ (truthy jwtArg = true →
        getItem (saveSession jwtArg userArg st) "jwt" = some (jsToString jwtArg))
    ∧ (∀ net data, truthy (pickToken data) = true →
        fetchUserProfile net PROFILE_CANDIDATES = none →
        (handleSubmit (.resp true (some data)) net st).store
          = saveSession (pickToken data) .vUndefined st
        ∧ getItem (handleSubmit (.resp true (some data)) net st).store "userdata"
            = getItem st "userdata") := by
  refine ⟨?_, ?_, fun hj => saveSession_jwt_untouched _ _ _ hj,
    fun hu => saveSession_userdata_untouched _ _ _ hu,
    fun hj => saveSession_jwt_written _ _ _ hj, ?_⟩
  · intro k hk1 hk2
    by_cases hj : truthy jwtArg = true <;> by_cases hu : truthy userArg = true
    · cases hs : jsStringify userArg with
      | some s =>
          simp [saveSession, getItem, hj, hu, hs,
            lookupKey_setKey_ne _ _ (Ne.symm hk2), lookupKey_setKey_ne _ _ (Ne.symm hk1)]
      | none =>
          simp [saveSession, getItem, hj, hu, hs, lookupKey_setKey_ne _ _ (Ne.symm hk1)]
    · simp [saveSession, getItem, hj, hu, lookupKey_setKey_ne _ _ (Ne.symm hk1)]
    · cases hs : jsStringify userArg with
      | some s =>
          simp [saveSession, getItem, hj, hu, hs, lookupKey_setKey_ne _ _ (Ne.symm hk2)]
      | none => simp [saveSession, getItem, hj, hu, hs]
    · simp [saveSession, getItem, hj, hu]
  · intro k hk
    by_cases hj : truthy jwtArg = true <;> by_cases hu : truthy userArg = true
    · cases hs : jsStringify userArg with
      | some s =>
          simp only [saveSession, getItem, hj, hu, hs, if_true]
          exact isSome_lookupKey_setKey _ _ _ _ (isSome_lookupKey_setKey _ _ _ _ hk)
      | none =>
          simp only [saveSession, getItem, hj, hu, hs, if_true]
          exact isSome_lookupKey_setKey _ _ _ _ hk
    · simp only [saveSession, getItem, hj, hu, if_true, if_false]
      exact isSome_lookupKey_setKey _ _ _ _ hk
    · cases hs : jsStringify userArg with
      | some s =>
          simp only [saveSession, getItem, hj, hu, hs]
          exact isSome_lookupKey_setKey _ _ _ _ hk
      | none => simpa [saveSession, getItem, hj, hu, hs] using hk
    · simpa [saveSession, getItem, hj, hu] using hk
  · intro net data htok hnone
    have hpr : (fetchUserProfileGo net PROFILE_CANDIDATES).1 = none := hnone
    constructor
    · simp [handleSubmit, htok, hpr]
    · have hst : (handleSubmit (.resp true (some data)) net st).store
          = saveSession (pickToken data) .vUndefined st := by
        simp [handleSubmit, htok, hpr]
      rw [hst]
      exact saveSession_userdata_untouched _ _ _ rfl

/-- Witness for the C10 theorem: after a login with token `T` whose
profile resolution fails against a pre-existing store, the old `userdata`
entry is still readable and the `jwt` entry was overwritten. -/
theorem saveSession_frame_and_stale_userdata_witness :
    truthy (pickToken dC6) = true
    ∧ fetchUserProfile netC6 PROFILE_CANDIDATES = none
    ∧ getItem (handleSubmit (.resp true (some dC6)) netC6
        [("userdata", "old"), ("jwt", "stale")]).store "userdata" = some "old"
    ∧ getItem (handleSubmit (.resp true (some dC6)) netC6
        [("userdata", "old"), ("jwt", "stale")]).store "jwt" = some "T1" := by
  have h := (saveSession_frame_and_stale_userdata (pickToken dC6) .vUndefined
    [("userdata", "old"), ("jwt", "stale")]).2.2.2.2.2 netC6 dC6 (by decide) rfl
  refine ⟨by decide, rfl, h.2.trans (by decide), ?_⟩
  rw [h.1]
  exact (saveSession_jwt_written _ _ _ (by decide)).trans (by decide)

end LoginScript
